import Mathlib

/-!
# gdns-go, package `myip`: the refresh / cache / notify loop

A shallow embedding of `src/myip/myip.go` and the properties of its
cache-and-loop controller and of the Taobao resolver.

Conventions of the embedding.

* `net.IP` is a byte slice that may be `nil`; it is `Option (List Byte)`, with
  `none` for the `nil` slice ("unset") and `some []` for an empty non-nil slice.
* A Go result pair `(net.IP, error)` is the structure `IPResult`; the error is
  `none` for a `nil` error.
* The observable effects of the package (the `log.Printf` lines and the
  goroutines started by `go cb(oldIP, newIP)`) are recorded, in program order,
  in the `trace` of the process state `Proc`.
* `sync.RWMutex` only serialises concurrent accesses to `m.ip`.  Every method
  body is embedded as one atomic step, so a `Lock`/`Unlock` pair is the
  identity and the mutex carries no state.
* The network call `m.api.IP()` is an input of the embedding: every step that
  performs it takes the value it returned as an argument.
-/

namespace GdnsGo

/-! ## Addresses -/

/-- One octet of an address. -/
abbrev Byte := Fin 256

/-- Go's `net.IP`, a byte slice: `none` is the `nil` slice. -/
abbrev IP := Option (List Byte)

/-- The bytes of a slice; a `nil` slice has none. -/
def IP.bytes : IP → List Byte
  | none => []
  | some bs => bs

/-- Go's `len(ip)`. -/
def IP.len (ip : IP) : Nat := ip.bytes.length

/-- Go's `net.IPv4len`. -/
def IPv4len : Nat := 4

/-- Go's `net.IPv6len`. -/
def IPv6len : Nat := 16

/-- Go's `net.v4InV6Prefix`: the twelve bytes `0,0,0,0,0,0,0,0,0,0,0xff,0xff`. -/
def v4InV6Prefix : List Byte := [0, 0, 0, 0, 0, 0, 0, 0, 0, 0, 0xff, 0xff]

/-- Go's `net.IP.Equal` (standard library), as `oldIP.Equal(newIP)` uses it:
slices of one length are compared byte by byte, and a 4-byte address equals the
16-byte address made of `v4InV6Prefix` followed by the same four bytes. -/
def IP.Equal (ip x : IP) : Bool :=
  if ip.len = x.len then
    decide (ip.bytes = x.bytes)
  else if ip.len = IPv4len ∧ x.len = IPv6len then
    decide (x.bytes.take 12 = v4InV6Prefix) && decide (ip.bytes = x.bytes.drop 12)
  else if ip.len = IPv6len ∧ x.len = IPv4len then
    decide (ip.bytes.take 12 = v4InV6Prefix) && decide (ip.bytes.drop 12 = x.bytes)
  else
    false

/-- Go's `net.IPv4(a, b, c, d)` followed by `To4()`: the 4-byte form. -/
def IPv4short (a b c d : Byte) : IP := some [a, b, c, d]

/-- Go's `net.IPv4(a, b, c, d)`: the 16-byte IPv4-in-IPv6 form. -/
def IPv4long (a b c d : Byte) : IP := some (v4InV6Prefix ++ [a, b, c, d])

/-- The normal form of an address, as the specification asks for ("normalize
representation before compare"): a 4-byte address is widened to its 16-byte
form, every other slice stands for itself. -/
def IP.normalise (ip : IP) : List Byte :=
  if ip.len = IPv4len then v4InV6Prefix ++ ip.bytes else ip.bytes

/-! ## The controller -/

/-- A Go `error`, by its message. -/
abbrev Error := String

/-- What `Interface.IP()` returns: `(net.IP, error)`, `err = none` for `nil`. -/
structure IPResult where
  ip : IP
  err : Option Error
  deriving DecidableEq, Repr

/-- A successful resolution `(a, nil)`. -/
def IPResult.ok (a : IP) : IPResult := { ip := a, err := none }

/-- A failed resolution `(nil, e)`. -/
def IPResult.fail (e : Error) : IPResult := { ip := none, err := some e }

/-- An observable effect of the package. -/
inductive Event where
  /-- The line `log.Printf("refresh myip failed: %v", err)`. -/
  | logRefreshFailed (err : Error)
  /-- The line `log.Printf("myip changed from %s to %s", oldIP, newIP)`. -/
  | logChanged (oldIP newIP : IP)
  /-- The statement `go cb(oldIP, newIP)`: one callback firing. -/
  | goCb (oldIP newIP : IP)
  deriving DecidableEq, Repr

/-- The struct `MyIP`: the cached address and the resolver reference. -/
structure MyIP (Api : Type) where
  ip : IP
  api : Api

/-- The process state a method of `*MyIP` runs in: the object and the trace of
effects produced so far. -/
structure Proc (Api : Type) where
  m : MyIP Api
  trace : List Event

/-- The function `New`: `&MyIP{api: api}`; the address is the zero value `nil`. -/
def New {Api : Type} (api : Api) : MyIP Api := { ip := none, api := api }

/-- A fresh process around an object: no effect has happened yet. -/
def Proc.start {Api : Type} (m : MyIP Api) : Proc Api := { m := m, trace := [] }

/-- The method `GetIP`: `return m.ip` under the read lock. Returns the value
and the state after the call. -/
def GetIP {Api : Type} (p : Proc Api) : IP × Proc Api := (p.m.ip, p)

/-- The method `SetIP`: `m.ip = ip` under the write lock. -/
def SetIP {Api : Type} (p : Proc Api) (ip : IP) : Proc Api :=
  { p with m := { p.m with ip := ip } }

/-- The method `refreshFromTaobaoIP`, given the value `r` that `m.api.IP()`
returned: the error is passed on when there is one, otherwise the address is
stored with `SetIP`. -/
def refreshFromTaobaoIP {Api : Type} (p : Proc Api) (r : IPResult) :
    Option Error × Proc Api :=
  match r.err with
  | some err => (some err, p)
  | none => (none, SetIP p r.ip)

/-- The state of the goroutine started by `StartTaobaoIPLoop`: the process and
the local variable `oldIP`. -/
structure Loop (Api : Type) where
  p : Proc Api
  oldIP : IP

/-- The goroutine's first statement, `oldIP := m.GetIP()`. -/
def StartTaobaoIPLoop {Api : Type} (p : Proc Api) : Loop Api :=
  let g := GetIP p
  { p := g.2, oldIP := g.1 }

/-- Appends an effect to the trace. -/
def Proc.emit {Api : Type} (p : Proc Api) (e : Event) : Proc Api :=
  { p with trace := p.trace ++ [e] }

/-- One iteration of the `for` loop of `StartTaobaoIPLoop`; `cb` tells whether
the callback is non-nil and `r` is what the resolver returned in this
iteration. `time.Sleep` changes no state. -/
def loopBody {Api : Type} (cb : Bool) (s : Loop Api) (r : IPResult) : Loop Api :=
  match refreshFromTaobaoIP s.p r with
  | (some err, p1) => { p := p1.emit (Event.logRefreshFailed err), oldIP := s.oldIP }
  | (none, p1) =>
    let g := GetIP p1
    let newIP := g.1
    let p2 := g.2
    if !s.oldIP.Equal newIP then
      let p3 := p2.emit (Event.logChanged s.oldIP newIP)
      let p4 := if cb then p3.emit (Event.goCb s.oldIP newIP) else p3
      { p := p4, oldIP := newIP }
    else
      { p := p2, oldIP := s.oldIP }

/-- The loop run for as many iterations as there are resolver results. -/
def runLoop {Api : Type} (cb : Bool) (s : Loop Api) : List IPResult → Loop Api
  | [] => s
  | r :: rs => runLoop cb (loopBody cb s r) rs

/-- The callback firings recorded in a trace, in order. -/
def firings : List Event → List (IP × IP)
  | [] => []
  | Event.goCb o n :: es => (o, n) :: firings es
  | _ :: es => firings es

/-- The log lines recorded in a trace, in order. -/
def logLines : List Event → List Event
  | [] => []
  | Event.goCb _ _ :: es => logLines es
  | e :: es => e :: logLines es

/-- The changes logged in a trace, in order: the two addresses of every line
"myip changed from ... to ...". -/
def changes : List Event → List (IP × IP)
  | [] => []
  | Event.logChanged o n :: es => (o, n) :: changes es
  | _ :: es => changes es

/-! ## The Taobao resolver -/

/-- The fields of `http.Response` that `Taobao.IP` reads. -/
structure Response where
  Status : String
  StatusCode : Int
  Body : String

/-- The inner struct `Data` of the local variable `parsed`. -/
structure ParsedData where
  IP : String

/-- The local variable `parsed` of `Taobao.IP`. -/
structure Parsed where
  Code : Int
  Data : ParsedData

/-- The library and network functions `Taobao.IP` calls, for a client type `C`:
`http.DefaultClient`, `c.Do(TaobaoRequest)`, `json.NewDecoder(body).Decode`,
`net.ParseIP` (`none` when the literal does not parse) and the `%q` verb of
`fmt`. -/
structure Env (C : Type) where
  DefaultClient : C
  Do : C → Except Error Response
  Decode : String → Except Error Parsed
  ParseIP : String → IP
  Quote : String → String

/-- The struct `Taobao`: an optional HTTP client. -/
structure Taobao (C : Type) where
  Client : Option C

/-- Go's `http.StatusOK`. -/
def StatusOK : Int := 200

/-- The client `Taobao.IP` uses: `t.Client`, or the default one when nil. -/
def Taobao.client {C : Type} (env : Env C) (t : Taobao C) : C :=
  match t.Client with
  | none => env.DefaultClient
  | some c => c

/-- The error `fmt.Errorf("unexpected status: %v", resp.Status)`. -/
def errStatus (status : String) : Error := "unexpected status: " ++ status

/-- The error `fmt.Errorf("failed in decoding Taobao response: %v", err)`. -/
def errDecode (err : Error) : Error := "failed in decoding Taobao response: " ++ err

/-- The error `fmt.Errorf("failed to parse %q as ip", s)`, with `q` the quoted `s`. -/
def errParse (q : String) : Error := "failed to parse " ++ q ++ " as ip"

/-- The method `Taobao.IP`. Its source comment speaks of an IPv4 address; the
code returns whatever `net.ParseIP` accepts, an IPv6 literal included. -/
def Taobao.IP {C : Type} (env : Env C) (t : Taobao C) : IPResult :=
  let c := t.client env
  match env.Do c with
  | Except.error err => { ip := none, err := some err }
  | Except.ok resp =>
    if resp.StatusCode ≠ StatusOK then
      { ip := none, err := some (errStatus resp.Status) }
    else
      match env.Decode resp.Body with
      | Except.error err => { ip := none, err := some (errDecode err) }
      | Except.ok parsed =>
        let ip := env.ParseIP parsed.Data.IP
        if ip = none then
          { ip := none, err := some (errParse (env.Quote parsed.Data.IP)) }
        else
          { ip := ip, err := none }

/-! ## Definitions that follow the specification's words -/

/-- The firings the specification's change-detection property lists for the
initial value `a0` and the resolved addresses `as`: one pair
`(a_(i-1), a_i)` for each `i` whose address is not address-equal to the one
before it. -/
def specFirings (a0 : IP) : List IP → List (IP × IP)
  | [] => []
  | a :: as =>
    if a0.Equal a then specFirings a as else (a0, a) :: specFirings a as

/-- The address of the most recent successful resolution of a list of tick
results, `none` ("unset") when none succeeded. -/
def lastGood (rs : List IPResult) : IP :=
  match rs.reverse.find? (fun r => r.err.isNone) with
  | some r => r.ip
  | none => none

/-- The tick results with the failed ticks removed. -/
def successes (rs : List IPResult) : List IPResult :=
  rs.filter (fun r => r.err.isNone)

/-! ## The effects of one iteration and of a run

These functions are not in the source: they describe, field by field, what
`loopBody` and `runLoop` compute (`loopBody_eq`, `runLoop_eq`). -/

/-- The effects one iteration adds to the trace, from the value of `oldIP`
and the resolver's result. -/
def tickEvents (cb : Bool) (o : IP) (r : IPResult) : List Event :=
  match r.err with
  | some err => [Event.logRefreshFailed err]
  | none =>
    if IP.Equal o r.ip then []
    else if cb then [Event.logChanged o r.ip, Event.goCb o r.ip]
    else [Event.logChanged o r.ip]

/-- The value of `oldIP` after one iteration. -/
def tickOld (o : IP) (r : IPResult) : IP :=
  match r.err with
  | some _ => o
  | none => if IP.Equal o r.ip then o else r.ip

/-- The cached address after one iteration. -/
def tickCache (c : IP) (r : IPResult) : IP :=
  match r.err with
  | some _ => c
  | none => r.ip

/-- The effects a run adds to the trace. -/
def runEvents (cb : Bool) (o : IP) : List IPResult → List Event
  | [] => []
  | r :: rs => tickEvents cb o r ++ runEvents cb (tickOld o r) rs

/-- The value of `oldIP` after a run. -/
def runOld (o : IP) : List IPResult → IP
  | [] => o
  | r :: rs => runOld (tickOld o r) rs

/-- The cached address after a run. -/
def runCache (c : IP) : List IPResult → IP
  | [] => c
  | r :: rs => runCache (tickCache c r) rs

/-! # Theorems -/

/-! ## Address equality is equality of normal forms -/

theorem normalise_length (x : IP) :
    (IP.normalise x).length = if IP.len x = 4 then 16 else IP.len x := by
  unfold IP.normalise IPv4len
  split
  · rename_i h
    have hl : v4InV6Prefix.length = 12 := rfl
    simp [hl, IP.len] at h ⊢
    omega
  · rfl

theorem Equal_iff_normalise (x y : IP) :
    IP.Equal x y = true ↔ IP.normalise x = IP.normalise y := by
  have hx := normalise_length x
  have hy := normalise_length y
  have hl : v4InV6Prefix.length = 12 := rfl
  unfold IP.Equal IP.normalise IPv4len IPv6len at *
  by_cases h : IP.len x = IP.len y
  · simp only [h, if_true, decide_eq_true_eq]
    by_cases h4 : IP.len y = 4
    · simp [h4]
    · simp [h4]
  · simp only [h, if_false]
    by_cases h1 : IP.len x = 4 ∧ IP.len y = 16
    · obtain ⟨hx4, hy16⟩ := h1
      simp only [hx4, hy16, and_self, if_true, Bool.and_eq_true, decide_eq_true_eq]
      simp only [show ¬ ((16 : Nat) = 4) by decide, if_false]
      constructor
      · rintro ⟨hp, hd⟩
        rw [← hp, hd, List.take_append_drop]
      · intro he
        rw [← he]
        simp [List.take_append_eq_append_take, List.drop_append_eq_append_drop, hl]
    · simp only [h1, if_false]
      by_cases h2 : IP.len x = 16 ∧ IP.len y = 4
      · obtain ⟨hx16, hy4⟩ := h2
        simp only [hx16, hy4, and_self, if_true, Bool.and_eq_true, decide_eq_true_eq]
        simp only [show ¬ ((16 : Nat) = 4) by decide, if_false]
        constructor
        · rintro ⟨hp, hd⟩
          rw [← hp, ← hd, List.take_append_drop]
        · intro he
          rw [he]
          simp [List.take_append_eq_append_take, List.drop_append_eq_append_drop, hl]
      · simp only [h2, if_false]
        constructor
        · intro hf; exact absurd hf (by simp)
        · intro he
          exfalso
          have hlen := congrArg List.length he
          rw [hx, hy] at hlen
          split_ifs at hlen <;> omega

theorem Equal_refl (x : IP) : IP.Equal x x = true :=
  (Equal_iff_normalise x x).2 rfl

theorem Equal_congr_left {x y : IP} (h : IP.Equal x y = true) (z : IP) :
    IP.Equal x z = IP.Equal y z := by
  have hn := (Equal_iff_normalise x y).1 h
  rw [Bool.eq_iff_iff, Equal_iff_normalise, Equal_iff_normalise, hn]

theorem Equal_none_real (a : IP) (h : IP.len a ≠ 0) : IP.Equal none a = false := by
  have h0 : IP.len (none : IP) = 0 := rfl
  unfold IP.Equal IPv4len IPv6len
  rw [h0]
  simp [Ne.symm h]

/-! ## The loop in terms of its effects -/

theorem loopBody_eq {Api : Type} (cb : Bool) (s : Loop Api) (r : IPResult) :
    loopBody cb s r =
      { p := { m := { ip := tickCache s.p.m.ip r, api := s.p.m.api },
               trace := s.p.trace ++ tickEvents cb s.oldIP r },
        oldIP := tickOld s.oldIP r } := by
  obtain ⟨⟨⟨c, api⟩, tr⟩, o⟩ := s
  obtain ⟨a, e⟩ := r
  cases e with
  | some err =>
    simp [loopBody, refreshFromTaobaoIP, Proc.emit, tickCache, tickEvents, tickOld]
  | none =>
    by_cases h : IP.Equal o a = true
    · simp [loopBody, refreshFromTaobaoIP, Proc.emit, tickCache, tickEvents, tickOld, GetIP,
        SetIP, h]
    · cases cb <;>
        simp [loopBody, refreshFromTaobaoIP, Proc.emit, tickCache, tickEvents, tickOld, GetIP,
          SetIP, h]

theorem runLoop_eq {Api : Type} (cb : Bool) (s : Loop Api) (rs : List IPResult) :
    runLoop cb s rs =
      { p := { m := { ip := runCache s.p.m.ip rs, api := s.p.m.api },
               trace := s.p.trace ++ runEvents cb s.oldIP rs },
        oldIP := runOld s.oldIP rs } := by
  induction rs generalizing s with
  | nil => simp [runLoop, runCache, runEvents, runOld]
  | cons r rs ih =>
    rw [runLoop, ih, loopBody_eq]
    simp [runCache, runEvents, runOld, List.append_assoc]

theorem firings_append (xs ys : List Event) :
    firings (xs ++ ys) = firings xs ++ firings ys := by
  induction xs with
  | nil => rfl
  | cons e xs ih => cases e <;> simp [firings, ih]

theorem logLines_append (xs ys : List Event) :
    logLines (xs ++ ys) = logLines xs ++ logLines ys := by
  induction xs with
  | nil => rfl
  | cons e xs ih => cases e <;> simp [logLines, ih]

theorem runEvents_append (cb : Bool) (o : IP) (xs ys : List IPResult) :
    runEvents cb o (xs ++ ys) = runEvents cb o xs ++ runEvents cb (runOld o xs) ys := by
  induction xs generalizing o with
  | nil => rfl
  | cons r xs ih => simp [runEvents, runOld, ih, List.append_assoc]

theorem runOld_append (o : IP) (xs ys : List IPResult) :
    runOld o (xs ++ ys) = runOld (runOld o xs) ys := by
  induction xs generalizing o with
  | nil => rfl
  | cons r xs ih => simp [runOld, ih]

theorem runCache_append (c : IP) (xs ys : List IPResult) :
    runCache c (xs ++ ys) = runCache (runCache c xs) ys := by
  induction xs generalizing c with
  | nil => rfl
  | cons r xs ih => simp [runCache, ih]

theorem runCache_lastGood (c : IP) (rs : List IPResult) :
    runCache c rs =
      match rs.reverse.find? (fun r => r.err.isNone) with
      | some r => r.ip
      | none => c := by
  induction rs generalizing c with
  | nil => rfl
  | cons r rs ih =>
    rw [runCache, ih, List.reverse_cons, List.find?_append]
    cases hf : List.find? (fun r => r.err.isNone) rs.reverse with
    | some r1 => simp
    | none =>
      obtain ⟨a, e⟩ := r
      cases e <;> simp [tickCache, List.find?]

theorem tickEvents_same (cb : Bool) {o a : IP} (h : IP.Equal o a = true) :
    tickEvents cb o (IPResult.ok a) = [] := by
  simp [tickEvents, IPResult.ok, h]

theorem tickOld_same {o a : IP} (h : IP.Equal o a = true) :
    tickOld o (IPResult.ok a) = o := by
  simp [tickOld, IPResult.ok, h]

theorem tickOld_Equal (o a : IP) : IP.Equal (tickOld o (IPResult.ok a)) a = true := by
  by_cases h : IP.Equal o a = true
  · rw [tickOld_same h]; exact h
  · simp [tickOld, IPResult.ok, h, Equal_refl]

theorem runEvents_replicate_same (cb : Bool) {o a : IP} (h : IP.Equal o a = true) (n : Nat) :
    runEvents cb o (List.replicate n (IPResult.ok a)) = [] ∧
    runOld o (List.replicate n (IPResult.ok a)) = o := by
  induction n with
  | zero => exact ⟨rfl, rfl⟩
  | succ n ih =>
    simp only [List.replicate_succ, runEvents, runOld, tickEvents_same cb h, tickOld_same h]
    exact ⟨by simpa using ih.1, ih.2⟩

theorem firings_runEvents_nil_cb (o : IP) (rs : List IPResult) :
    firings (runEvents false o rs) = [] := by
  induction rs generalizing o with
  | nil => rfl
  | cons r rs ih =>
    obtain ⟨a, e⟩ := r
    rw [runEvents, firings_append, ih]
    cases e with
    | some err => simp [tickEvents, firings]
    | none =>
      by_cases h : IP.Equal o a = true <;> simp [tickEvents, firings, h]

theorem logLines_runEvents (o : IP) (rs : List IPResult) :
    runEvents false o rs = logLines (runEvents true o rs) := by
  induction rs generalizing o with
  | nil => rfl
  | cons r rs ih =>
    obtain ⟨a, e⟩ := r
    rw [runEvents, runEvents, logLines_append, ih]
    cases e with
    | some err => simp [tickEvents, logLines]
    | none =>
      by_cases h : IP.Equal o a = true <;> simp [tickEvents, logLines, h]

theorem tick_Equal (o c : IP) (r : IPResult) (h : IP.Equal o c = true) :
    IP.Equal (tickOld o r) (tickCache c r) = true := by
  obtain ⟨a, e⟩ := r
  cases e with
  | some err => simpa [tickOld, tickCache] using h
  | none => exact tickOld_Equal o a

theorem run_Equal (o c : IP) (rs : List IPResult) (h : IP.Equal o c = true) :
    IP.Equal (runOld o rs) (runCache c rs) = true := by
  induction rs generalizing o c with
  | nil => exact h
  | cons r rs ih => exact ih _ _ (tick_Equal o c r h)

theorem run_successes (cb : Bool) (o c : IP) (rs : List IPResult) :
    firings (runEvents cb o rs) = firings (runEvents cb o (successes rs)) ∧
    runOld o rs = runOld o (successes rs) ∧
    runCache c rs = runCache c (successes rs) := by
  induction rs generalizing o c with
  | nil => exact ⟨rfl, rfl, rfl⟩
  | cons r rs ih =>
    obtain ⟨a, e⟩ := r
    cases e with
    | some err =>
      have hs : successes ({ ip := a, err := some err } :: rs) = successes rs := by
        simp [successes]
      rw [hs]
      simpa [runEvents, runOld, runCache, tickEvents, tickOld, tickCache, firings_append,
        firings] using ih o c
    | none =>
      have hs : successes ({ ip := a, err := none } :: rs) =
          { ip := a, err := none } :: successes rs := by
        simp [successes]
      rw [hs]
      simp only [runEvents, runOld, runCache, firings_append]
      obtain ⟨h1, h2, h3⟩ := ih (tickOld o { ip := a, err := none })
        (tickCache c { ip := a, err := none })
      exact ⟨by rw [h1], h2, h3⟩

theorem firings_tickEvents_ok (o a : IP) :
    firings (tickEvents true o (IPResult.ok a)) = if IP.Equal o a then [] else [(o, a)] := by
  by_cases h : IP.Equal o a = true <;> simp [tickEvents, IPResult.ok, h, firings]

theorem firings_spec_rel (o prev : IP) (as : List IP) (h : IP.Equal o prev = true) :
    List.Forall₂ (fun f g : IP × IP => IP.Equal f.1 g.1 = true ∧ f.2 = g.2)
      (firings (runEvents true o (as.map IPResult.ok))) (specFirings prev as) := by
  induction as generalizing o prev with
  | nil => exact List.Forall₂.nil
  | cons a as ih =>
    simp only [List.map_cons, runEvents, firings_append, firings_tickEvents_ok, specFirings]
    rw [← Equal_congr_left h a]
    by_cases ha : IP.Equal o a = true
    · simp only [ha, if_true, List.nil_append, tickOld_same ha]
      exact ih o a ha
    · simp only [ha, Bool.false_eq_true, if_false, List.singleton_append]
      have ho : tickOld o (IPResult.ok a) = a := by simp [tickOld, IPResult.ok, ha]
      rw [ho]
      exact List.Forall₂.cons ⟨h, rfl⟩ (ih a a (Equal_refl a))

theorem firings_spec_exact (o : IP) (as : List IP)
    (h : ∀ x ∈ o :: as, ∀ y ∈ o :: as, IP.Equal x y = true → x = y) :
    firings (runEvents true o (as.map IPResult.ok)) = specFirings o as := by
  induction as generalizing o with
  | nil => rfl
  | cons a as ih =>
    simp only [List.map_cons, runEvents, firings_append, firings_tickEvents_ok, specFirings]
    have hrest : ∀ x ∈ a :: as, ∀ y ∈ a :: as, IP.Equal x y = true → x = y :=
      fun x hx y hy => h x (List.mem_cons_of_mem _ hx) y (List.mem_cons_of_mem _ hy)
    by_cases ha : IP.Equal o a = true
    · have hoa : o = a := h o (List.mem_cons_self _ _) a
        (List.mem_cons_of_mem _ (List.mem_cons_self _ _)) ha
      simp only [ha, if_true, List.nil_append, tickOld_same ha]
      rw [hoa]
      exact ih a hrest
    · have ho : tickOld o (IPResult.ok a) = a := by simp [tickOld, IPResult.ok, ha]
      simp only [ha, Bool.false_eq_true, if_false, List.singleton_append, ho]
      rw [ih a hrest]

theorem firings_chain (cb : Bool) (o : IP) (rs : List IPResult) :
    (firings (runEvents cb o rs)).map Prod.fst =
      (o :: (firings (runEvents cb o rs)).map Prod.snd).take
        (firings (runEvents cb o rs)).length := by
  cases cb with
  | false => simp [firings_runEvents_nil_cb]
  | true =>
    induction rs generalizing o with
    | nil => rfl
    | cons r rs ih =>
      obtain ⟨a, e⟩ := r
      cases e with
      | some err =>
        simpa [runEvents, tickEvents, tickOld, firings_append, firings] using ih o
      | none =>
        by_cases ha : IP.Equal o a = true
        · simpa [runEvents, tickEvents, tickOld, firings_append, firings, ha] using ih o
        · have := ih a
          simp [runEvents, tickEvents, tickOld, firings_append, firings, ha]
          exact this

theorem firings_sound (cb : Bool) (o : IP) (rs : List IPResult) :
    ∀ f ∈ firings (runEvents cb o rs),
      IP.Equal f.1 f.2 = false ∧ ∃ r ∈ rs, r.err = none ∧ r.ip = f.2 := by
  induction rs generalizing o with
  | nil => intro f hf; simp [runEvents, firings] at hf
  | cons r rs ih =>
    obtain ⟨a, e⟩ := r
    have lift : ∀ o1 : IP, ∀ f ∈ firings (runEvents cb o1 rs),
        IP.Equal f.1 f.2 = false ∧
          ∃ r ∈ ({ ip := a, err := e } : IPResult) :: rs, r.err = none ∧ r.ip = f.2 := by
      intro o1 f hf
      obtain ⟨h1, r, hr, h2⟩ := ih o1 f hf
      exact ⟨h1, r, List.mem_cons_of_mem _ hr, h2⟩
    cases e with
    | some err =>
      intro f hf
      simp only [runEvents, tickEvents, tickOld, firings_append, firings,
        List.nil_append] at hf
      exact lift o f hf
    | none =>
      intro f hf
      by_cases ha : IP.Equal o a = true
      · simp only [runEvents, tickEvents, tickOld, firings_append, firings, ha, if_true,
          List.nil_append] at hf
        exact lift o f hf
      · cases cb
        · simp only [runEvents, tickEvents, tickOld, firings_append, firings, ha,
            Bool.false_eq_true, if_false, List.nil_append] at hf
          exact lift a f hf
        · simp only [runEvents, tickEvents, tickOld, firings_append, firings, ha,
            if_true, Bool.false_eq_true, if_false, List.singleton_append,
            List.mem_cons] at hf
          rcases hf with hf | hf
          · subst hf
            exact ⟨by simpa using ha, _, List.mem_cons_self _ _, rfl, rfl⟩
          · exact lift a f hf

theorem chain_tail_old (o : IP) (fs : List (IP × IP))
    (h : fs.map Prod.fst = (o :: fs.map Prod.snd).take fs.length) :
    (∀ f, fs.head? = some f → f.1 = o) ∧ (∀ f ∈ fs.tail, ∃ g ∈ fs, f.1 = g.2) := by
  cases fs with
  | nil => simp
  | cons f0 fs =>
    simp only [List.map_cons, List.length_cons, List.take_succ_cons, List.cons.injEq] at h
    refine ⟨?_, ?_⟩
    · intro f hf
      simp only [List.head?_cons, Option.some.injEq] at hf
      rw [← hf]; exact h.1
    · intro f hf
      simp only [List.tail_cons] at hf
      have h1 : f.1 ∈ fs.map Prod.fst := List.mem_map_of_mem _ hf
      rw [h.2] at h1
      have h2 := List.mem_of_mem_take h1
      rw [← List.map_cons Prod.snd f0 fs] at h2
      obtain ⟨g, hg, hgf⟩ := List.mem_map.1 h2
      exact ⟨g, hg, hgf.symm⟩

theorem err_messages_distinct (s e q : String) :
    errStatus s ≠ errDecode e ∧ errStatus s ≠ errParse q ∧ errDecode e ≠ errParse q := by
  refine ⟨?_, ?_, ?_⟩
  · intro h
    have hd := congrArg String.data h
    simp [errStatus, errDecode, String.data_append] at hd
  · intro h
    have hd := congrArg String.data h
    simp [errStatus, errParse, String.data_append] at hd
  · intro h
    have hd := congrArg String.data h
    simp [errDecode, errParse, String.data_append] at hd

theorem changes_append (xs ys : List Event) :
    changes (xs ++ ys) = changes xs ++ changes ys := by
  induction xs with
  | nil => rfl
  | cons e xs ih => cases e <;> simp [changes, ih]

theorem changes_runEvents_nil_cb (o : IP) (rs : List IPResult) :
    changes (runEvents false o rs) = firings (runEvents true o rs) := by
  induction rs generalizing o with
  | nil => rfl
  | cons r rs ih =>
    obtain ⟨a, e⟩ := r
    rw [runEvents, runEvents, changes_append, firings_append, ih]
    cases e with
    | some err => simp [tickEvents, changes, firings]
    | none =>
      by_cases h : IP.Equal o a = true <;> simp [tickEvents, changes, firings, h]

/-! ## The claims -/

/-- C8: for every controller state and every address `a`, unset included,
`GetIP` after `SetIP(a)` returns exactly `a`; `SetIP` leaves the resolver
reference `api` unchanged and adds nothing to the trace, so it fires no
callback; `GetIP` returns the state it was called in. -/
theorem C8_SetIP_overwrites_and_frames {Api : Type} (p : Proc Api) (a : IP) :
    (GetIP (SetIP p a)).1 = a ∧
    (SetIP p a).m.api = p.m.api ∧
    (SetIP p a).trace = p.trace ∧
    firings (SetIP p a).trace = firings p.trace ∧
    (GetIP p).2 = p ∧
    (GetIP p).1 = p.m.ip :=
  ⟨rfl, rfl, rfl, rfl, rfl, rfl⟩

/-- C2: for a controller built by `New` and every list of tick results, with or
without a callback, `GetIP` after the run returns the address of the most
recent successful resolution, or `nil` when none succeeded. In particular after
a success with `A` followed by a failure it still returns `A`, and
`refreshFromTaobaoIP` hands the error back and leaves the state untouched when
the resolver fails. -/
theorem C2_GetIP_is_last_good {Api : Type} (api : Api) (cb : Bool) (rs : List IPResult) :
    (GetIP (runLoop cb (StartTaobaoIPLoop (Proc.start (New api))) rs).p).1 = lastGood rs ∧
    (∀ (A x : IP) (e : Error),
      (GetIP (runLoop cb (StartTaobaoIPLoop (Proc.start (New api)))
        (rs ++ [{ ip := A, err := none }, { ip := x, err := some e }])).p).1 = A) ∧
    (∀ (p : Proc Api) (x : IP) (e : Error),
      refreshFromTaobaoIP p { ip := x, err := some e } = (some e, p)) := by
  refine ⟨?_, ?_, ?_⟩
  · rw [runLoop_eq]
    simp only [GetIP, StartTaobaoIPLoop, Proc.start, New]
    rw [runCache_lastGood]
    rfl
  · intro A x e
    rw [runLoop_eq]
    simp only [GetIP, StartTaobaoIPLoop, Proc.start, New]
    rw [runCache_append]
    simp [runCache, tickCache]
  · intro p x e
    rfl

/-- C3: for every address `A`, every loop state and every `N ≥ 1`, when the
resolver returns `A` on `N` consecutive iterations the trace after the `N`
iterations is the trace after the first of them, so iterations `2..N` fire
nothing (and log nothing); and the first iteration adds at most one firing. -/
theorem C3_repeat_fires_at_most_once {Api : Type} (cb : Bool) (s : Loop Api) (A : IP)
    (N : Nat) (hN : 1 ≤ N) :
    (runLoop cb s (List.replicate N (IPResult.ok A))).p.trace =
      (loopBody cb s (IPResult.ok A)).p.trace ∧
    (∃ extra : List (IP × IP), extra.length ≤ 1 ∧
      firings (loopBody cb s (IPResult.ok A)).p.trace = firings s.p.trace ++ extra ∧
      firings (runLoop cb s (List.replicate N (IPResult.ok A))).p.trace =
        firings s.p.trace ++ extra) := by
  obtain ⟨n, rfl⟩ : ∃ n, N = n + 1 := ⟨N - 1, by omega⟩
  have hrest := runEvents_replicate_same cb (tickOld_Equal s.oldIP A) n
  have htr : (runLoop cb s (List.replicate (n + 1) (IPResult.ok A))).p.trace =
      (loopBody cb s (IPResult.ok A)).p.trace := by
    rw [runLoop_eq, loopBody_eq]
    simp [List.replicate_succ, runEvents, hrest.1]
  refine ⟨htr, firings (tickEvents cb s.oldIP (IPResult.ok A)), ?_, ?_, ?_⟩
  · by_cases h : IP.Equal s.oldIP A = true
    · simp [tickEvents, IPResult.ok, h, firings]
    · cases cb <;> simp [tickEvents, IPResult.ok, h, firings]
  · rw [loopBody_eq, firings_append]
  · rw [htr, loopBody_eq, firings_append]

/-- Witness of C3: three iterations resolving `1.2.3.4` from a fresh controller. -/
theorem C3_repeat_fires_at_most_once_witness :
    (1 ≤ 3) ∧
    ((runLoop true (StartTaobaoIPLoop (Proc.start (New ())))
        (List.replicate 3 (IPResult.ok (IPv4short 1 2 3 4)))).p.trace =
      (loopBody true (StartTaobaoIPLoop (Proc.start (New ())))
        (IPResult.ok (IPv4short 1 2 3 4))).p.trace ∧
    (∃ extra : List (IP × IP), extra.length ≤ 1 ∧
      firings (loopBody true (StartTaobaoIPLoop (Proc.start (New ())))
        (IPResult.ok (IPv4short 1 2 3 4))).p.trace =
          firings (StartTaobaoIPLoop (Proc.start (New ()))).p.trace ++ extra ∧
      firings (runLoop true (StartTaobaoIPLoop (Proc.start (New ())))
        (List.replicate 3 (IPResult.ok (IPv4short 1 2 3 4)))).p.trace =
          firings (StartTaobaoIPLoop (Proc.start (New ()))).p.trace ++ extra)) :=
  ⟨by decide,
    C3_repeat_fires_at_most_once true (StartTaobaoIPLoop (Proc.start (New ())))
      (IPv4short 1 2 3 4) 3 (by decide)⟩

/-- C5: the change test of the loop compares normal forms, not raw bytes. An
iteration that resolves `a` fires exactly when the normal forms of `oldIP` and
`a` differ; in particular, with `oldIP` the 4-byte form of an IPv4 address and
the resolver returning its 16-byte form, or the other way round, or with any
two slices of one normal form, the iteration adds nothing to the trace: no
firing and no log line. -/
theorem C5_change_test_is_normalised {Api : Type} (cb : Bool) (s : Loop Api) :
    (∀ a b c d : Byte, s.oldIP = IPv4short a b c d →
      (loopBody cb s (IPResult.ok (IPv4long a b c d))).p.trace = s.p.trace) ∧
    (∀ a b c d : Byte, s.oldIP = IPv4long a b c d →
      (loopBody cb s (IPResult.ok (IPv4short a b c d))).p.trace = s.p.trace) ∧
    (∀ x : IP, IP.normalise s.oldIP = IP.normalise x →
      (loopBody cb s (IPResult.ok x)).p.trace = s.p.trace ∧
      firings (loopBody cb s (IPResult.ok x)).p.trace = firings s.p.trace) ∧
    (∀ x : IP, firings (loopBody true s (IPResult.ok x)).p.trace =
      firings s.p.trace ++
        (if IP.normalise s.oldIP = IP.normalise x then [] else [(s.oldIP, x)])) := by
  have key : ∀ x : IP, IP.normalise s.oldIP = IP.normalise x →
      (loopBody cb s (IPResult.ok x)).p.trace = s.p.trace := by
    intro x hx
    rw [loopBody_eq]
    simp [tickEvents_same cb ((Equal_iff_normalise _ _).2 hx)]
  refine ⟨?_, ?_, ?_, ?_⟩
  · intro a b c d h
    apply key
    rw [h]
    rfl
  · intro a b c d h
    apply key
    rw [h]
    rfl
  · intro x hx
    exact ⟨key x hx, by rw [key x hx]⟩
  · intro x
    rw [loopBody_eq, firings_append]
    by_cases h : IP.normalise s.oldIP = IP.normalise x
    · simp [tickEvents_same true ((Equal_iff_normalise _ _).2 h), h, firings]
    · have hne : ¬ IP.Equal s.oldIP x = true := fun he => h ((Equal_iff_normalise _ _).1 he)
      simp [tickEvents, IPResult.ok, hne, h, firings]

/-- Witness of C5: the snapshot holds `1.2.3.4` in four bytes and the resolver
returns it in sixteen. -/
theorem C5_change_test_is_normalised_witness :
    (loopBody true ({ p := Proc.start (New ()), oldIP := IPv4short 1 2 3 4 } : Loop Unit)
      (IPResult.ok (IPv4long 1 2 3 4))).p.trace = [] :=
  (C5_change_test_is_normalised true
    ({ p := Proc.start (New ()), oldIP := IPv4short 1 2 3 4 } : Loop Unit)).1 1 2 3 4 rfl

/-- C9: with a nil callback change detection still runs but nothing is
notified. For every loop state and every list of tick results the run without
callback fires nothing, and its cached address and its snapshot `oldIP` are
those of the run with a callback on the same results, after the whole list and
after every prefix of it, with the same log lines. The detection itself: an
iteration without callback that resolves an address not address-equal to
`oldIP` stores it in the cache, logs the change and advances `oldIP`; one that
resolves an address-equal value only stores it; a failed one only logs the
failure. Over a run of successful resolutions from the cached value `a0` the
logged changes match, in order, the pairs `(a_(i-1), a_i)` of the ticks whose
address is not address-equal to the one before, and from a controller built by
`New` the cache ends as the last successfully resolved address. -/
theorem C9_nil_callback_only_drops_firings {Api : Type} (s : Loop Api)
    (rs : List IPResult) :
    firings (runLoop false s rs).p.trace = firings s.p.trace ∧
    (runLoop false s rs).p.m.ip = (runLoop true s rs).p.m.ip ∧
    (runLoop false s rs).p.m.api = (runLoop true s rs).p.m.api ∧
    (runLoop false s rs).oldIP = (runLoop true s rs).oldIP ∧
    logLines (runLoop false s rs).p.trace = logLines (runLoop true s rs).p.trace ∧
    (∃ added : List Event, (runLoop true s rs).p.trace = s.p.trace ++ added ∧
      (runLoop false s rs).p.trace = s.p.trace ++ logLines added) ∧
    (∀ k : Nat,
      (runLoop false s (rs.take k)).p.m.ip = (runLoop true s (rs.take k)).p.m.ip ∧
      (runLoop false s (rs.take k)).oldIP = (runLoop true s (rs.take k)).oldIP) ∧
    (∀ a : IP, IP.Equal s.oldIP a = false →
      loopBody false s (IPResult.ok a) =
        { p := { m := { ip := a, api := s.p.m.api },
                 trace := s.p.trace ++ [Event.logChanged s.oldIP a] },
          oldIP := a }) ∧
    (∀ a : IP, IP.Equal s.oldIP a = true →
      loopBody false s (IPResult.ok a) =
        { p := { m := { ip := a, api := s.p.m.api }, trace := s.p.trace },
          oldIP := s.oldIP }) ∧
    (∀ (x : IP) (e : Error),
      loopBody false s { ip := x, err := some e } =
        { p := { m := { ip := s.p.m.ip, api := s.p.m.api },
                 trace := s.p.trace ++ [Event.logRefreshFailed e] },
          oldIP := s.oldIP }) ∧
    (∀ (a0 : IP) (as : List IP),
      List.Forall₂ (fun f g : IP × IP => IP.Equal f.1 g.1 = true ∧ f.2 = g.2)
        (changes (runLoop false
          (StartTaobaoIPLoop (Proc.start { ip := a0, api := s.p.m.api }))
          (as.map IPResult.ok)).p.trace)
        (specFirings a0 as)) ∧
    (GetIP (runLoop false (StartTaobaoIPLoop (Proc.start (New s.p.m.api))) rs).p).1 =
      lastGood rs := by
  have hrel : firings (runLoop false s rs).p.trace = firings s.p.trace ∧
      (runLoop false s rs).p.m.ip = (runLoop true s rs).p.m.ip ∧
      (runLoop false s rs).p.m.api = (runLoop true s rs).p.m.api ∧
      (runLoop false s rs).oldIP = (runLoop true s rs).oldIP ∧
      logLines (runLoop false s rs).p.trace = logLines (runLoop true s rs).p.trace ∧
      (∃ added : List Event, (runLoop true s rs).p.trace = s.p.trace ++ added ∧
        (runLoop false s rs).p.trace = s.p.trace ++ logLines added) := by
    rw [runLoop_eq, runLoop_eq]
    refine ⟨?_, rfl, rfl, rfl, ?_, runEvents true s.oldIP rs, rfl, ?_⟩
    · simp [firings_append, firings_runEvents_nil_cb]
    · simp only [logLines_append]
      rw [logLines_runEvents s.oldIP rs]
      congr 1
      generalize runEvents true s.oldIP rs = es
      induction es with
      | nil => rfl
      | cons e es ih => cases e <;> simp [logLines, ih]
    · simp only
      rw [logLines_runEvents s.oldIP rs]
  obtain ⟨h1, h2, h3, h4, h5, h6⟩ := hrel
  refine ⟨h1, h2, h3, h4, h5, h6, ?_, ?_, ?_, ?_, ?_, ?_⟩
  · intro k
    rw [runLoop_eq, runLoop_eq]
    exact ⟨rfl, rfl⟩
  · intro a ha
    rw [loopBody_eq]
    simp [tickEvents, tickOld, tickCache, IPResult.ok, ha]
  · intro a ha
    rw [loopBody_eq]
    simp [tickEvents, tickOld, tickCache, IPResult.ok, ha]
  · intro x e
    rw [loopBody_eq]
    simp [tickEvents, tickOld, tickCache]
  · intro a0 as
    have htr : changes (runLoop false
        (StartTaobaoIPLoop (Proc.start { ip := a0, api := s.p.m.api }))
        (as.map IPResult.ok)).p.trace = firings (runEvents true a0 (as.map IPResult.ok)) := by
      rw [runLoop_eq]
      simp [StartTaobaoIPLoop, GetIP, Proc.start, changes, changes_runEvents_nil_cb]
    rw [htr]
    exact firings_spec_rel a0 a0 as (Equal_refl a0)
  · rw [runLoop_eq]
    simp only [GetIP, StartTaobaoIPLoop, Proc.start, New]
    rw [runCache_lastGood]
    rfl

/-- Witness of C9: without callback, a fresh controller resolving `1.2.3.4`
stores it, logs the change from unset and advances the snapshot. -/
theorem C9_nil_callback_only_drops_firings_witness :
    loopBody false (StartTaobaoIPLoop (Proc.start (New ())))
        (IPResult.ok (IPv4short 1 2 3 4)) =
      { p := { m := { ip := IPv4short 1 2 3 4, api := () },
               trace := [Event.logChanged none (IPv4short 1 2 3 4)] },
        oldIP := IPv4short 1 2 3 4 } :=
  (C9_nil_callback_only_drops_firings (StartTaobaoIPLoop (Proc.start (New ())))
    []).2.2.2.2.2.2.2.1 (IPv4short 1 2 3 4) (by decide)

/-- C10: the snapshot `oldIP` starts as the cached address, and after every run
of the loop from there, whatever the results and with or without a callback, it
is address-equal (`net.IP.Equal`) to the address `GetIP` returns. The two need
not be the same bytes: after resolving `1.2.3.4` in four bytes and then in
sixteen, the cache holds the 16-byte form and the snapshot the 4-byte one. -/
theorem C10_snapshot_Equal_cache {Api : Type} (p : Proc Api) (cb : Bool)
    (rs : List IPResult) :
    (StartTaobaoIPLoop p).oldIP = (GetIP p).1 ∧
    IP.Equal (runLoop cb (StartTaobaoIPLoop p) rs).oldIP
      (GetIP (runLoop cb (StartTaobaoIPLoop p) rs).p).1 = true ∧
    ((GetIP (runLoop true (StartTaobaoIPLoop (Proc.start (New ())))
        [IPResult.ok (IPv4short 1 2 3 4), IPResult.ok (IPv4long 1 2 3 4)]).p).1
        = IPv4long 1 2 3 4 ∧
      (runLoop true (StartTaobaoIPLoop (Proc.start (New ())))
        [IPResult.ok (IPv4short 1 2 3 4), IPResult.ok (IPv4long 1 2 3 4)]).oldIP
        = IPv4short 1 2 3 4 ∧
      IPv4short 1 2 3 4 ≠ IPv4long 1 2 3 4) := by
  refine ⟨rfl, ?_, by decide, by decide, by decide⟩
  rw [runLoop_eq]
  exact run_Equal _ _ rs (Equal_refl _)

/-- C7: for every loop state and every list of tick results, the firings, the
snapshot and the cached address after the run are those of the run on the same
results with the failed ticks removed; a failed tick adds no firing and changes
neither the controller nor the snapshot. Scenario: from a fresh controller the
results `[A, A, B, fail, B, C]`, with `A` not address-equal to unset nor to `B`,
and `B` not to `C`, give exactly the firings `(unset, A)`, `(A, B)`, `(B, C)`;
the cache reads `B` after the fourth tick and `C` after the sixth. -/
theorem C7_failed_ticks_are_transparent {Api : Type} (cb : Bool) (s : Loop Api)
    (rs : List IPResult) :
    (firings (runLoop cb s rs).p.trace = firings (runLoop cb s (successes rs)).p.trace ∧
      (runLoop cb s rs).oldIP = (runLoop cb s (successes rs)).oldIP ∧
      (runLoop cb s rs).p.m.ip = (runLoop cb s (successes rs)).p.m.ip) ∧
    (∀ (x : IP) (e : Error),
      firings (loopBody cb s { ip := x, err := some e }).p.trace = firings s.p.trace ∧
      (loopBody cb s { ip := x, err := some e }).p.m.ip = s.p.m.ip ∧
      (loopBody cb s { ip := x, err := some e }).p.m.api = s.p.m.api ∧
      (loopBody cb s { ip := x, err := some e }).oldIP = s.oldIP) ∧
    (∀ (api : Api) (A B C x : IP) (e : Error),
      IP.Equal none A = false → IP.Equal A B = false → IP.Equal B C = false →
      firings (runLoop true (StartTaobaoIPLoop (Proc.start (New api)))
        [IPResult.ok A, IPResult.ok A, IPResult.ok B, { ip := x, err := some e },
          IPResult.ok B, IPResult.ok C]).p.trace = [(none, A), (A, B), (B, C)] ∧
      (GetIP (runLoop true (StartTaobaoIPLoop (Proc.start (New api)))
        [IPResult.ok A, IPResult.ok A, IPResult.ok B, { ip := x, err := some e }]).p).1 = B ∧
      (GetIP (runLoop true (StartTaobaoIPLoop (Proc.start (New api)))
        [IPResult.ok A, IPResult.ok A, IPResult.ok B, { ip := x, err := some e },
          IPResult.ok B, IPResult.ok C]).p).1 = C) := by
  refine ⟨?_, ?_, ?_⟩
  · rw [runLoop_eq, runLoop_eq]
    obtain ⟨h1, h2, h3⟩ := run_successes cb s.oldIP s.p.m.ip rs
    exact ⟨by simp only [firings_append, h1], h2, h3⟩
  · intro x e
    rw [loopBody_eq]
    simp [firings_append, tickEvents, tickCache, tickOld, firings]
  · intro api A B C x e hA hAB hBC
    rw [runLoop_eq, runLoop_eq]
    simp [StartTaobaoIPLoop, GetIP, Proc.start, New, runEvents, runOld, runCache, tickEvents,
      tickOld, tickCache, IPResult.ok, hA, hAB, hBC, Equal_refl, firings]

/-- Witness of C7: the scenario with `A = 1.2.3.4`, `B = 5.6.7.8` and
`C = 9.9.9.9`. -/
theorem C7_failed_ticks_are_transparent_witness :
    firings (runLoop true (StartTaobaoIPLoop (Proc.start (New ())))
      [IPResult.ok (IPv4short 1 2 3 4), IPResult.ok (IPv4short 1 2 3 4),
        IPResult.ok (IPv4short 5 6 7 8), { ip := none, err := some "timeout" },
        IPResult.ok (IPv4short 5 6 7 8), IPResult.ok (IPv4short 9 9 9 9)]).p.trace =
      [(none, IPv4short 1 2 3 4), (IPv4short 1 2 3 4, IPv4short 5 6 7 8),
        (IPv4short 5 6 7 8, IPv4short 9 9 9 9)] :=
  ((C7_failed_ticks_are_transparent true (StartTaobaoIPLoop (Proc.start (New ()))) []).2.2
    () (IPv4short 1 2 3 4) (IPv4short 5 6 7 8) (IPv4short 9 9 9 9) none "timeout"
    (by decide) (by decide) (by decide)).1

/-- Counterexample to C1 as stated: from an unset cache the resolver returns
`1.2.3.4` in four bytes, then in sixteen bytes, then `5.6.7.8`. The third tick
fires with the snapshot, the 4-byte form, as its old address, where the claim
lists the address of the second tick, the 16-byte form. -/
theorem C1_counterexample :
    firings (runLoop true (StartTaobaoIPLoop (Proc.start ({ ip := none, api := () } : MyIP Unit)))
      ([IPv4short 1 2 3 4, IPv4long 1 2 3 4, IPv4short 5 6 7 8].map IPResult.ok)).p.trace
      = [(none, IPv4short 1 2 3 4), (IPv4short 1 2 3 4, IPv4short 5 6 7 8)] ∧
    specFirings none [IPv4short 1 2 3 4, IPv4long 1 2 3 4, IPv4short 5 6 7 8]
      = [(none, IPv4short 1 2 3 4), (IPv4long 1 2 3 4, IPv4short 5 6 7 8)] ∧
    firings (runLoop true (StartTaobaoIPLoop (Proc.start ({ ip := none, api := () } : MyIP Unit)))
      ([IPv4short 1 2 3 4, IPv4long 1 2 3 4, IPv4short 5 6 7 8].map IPResult.ok)).p.trace
      ≠ specFirings none [IPv4short 1 2 3 4, IPv4long 1 2 3 4, IPv4short 5 6 7 8] := by
  decide

/-- C1, amended: for every initial cached value `a0` and every list `as` of
successfully resolved addresses, with a non-nil callback, the firings of the
run match one by one, in order, the pairs `(a_(i-1), a_i)` of the ticks whose
address is not address-equal to the one before: the new address is `a_i`
itself and the old address is address-equal to `a_(i-1)`. The old address is
the snapshot: `a0` for the first firing and the new address of the firing
before for every later one. When address-equal values among `a0, as` are the
same bytes, the firings are exactly the pairs `(a_(i-1), a_i)`. From an unset
cache a first address of non-zero length always fires `(unset, a)`. -/
theorem C1_firings_follow_changes {Api : Type} (api : Api) (a0 : IP) (as : List IP) :
    List.Forall₂ (fun f g : IP × IP => IP.Equal f.1 g.1 = true ∧ f.2 = g.2)
      (firings (runLoop true (StartTaobaoIPLoop (Proc.start { ip := a0, api := api }))
        (as.map IPResult.ok)).p.trace)
      (specFirings a0 as) ∧
    (firings (runLoop true (StartTaobaoIPLoop (Proc.start { ip := a0, api := api }))
        (as.map IPResult.ok)).p.trace).map Prod.fst =
      (a0 :: (firings (runLoop true (StartTaobaoIPLoop (Proc.start { ip := a0, api := api }))
        (as.map IPResult.ok)).p.trace).map Prod.snd).take
        (firings (runLoop true (StartTaobaoIPLoop (Proc.start { ip := a0, api := api }))
          (as.map IPResult.ok)).p.trace).length ∧
    ((∀ x ∈ a0 :: as, ∀ y ∈ a0 :: as, IP.Equal x y = true → x = y) →
      firings (runLoop true (StartTaobaoIPLoop (Proc.start { ip := a0, api := api }))
        (as.map IPResult.ok)).p.trace = specFirings a0 as) ∧
    (∀ a : IP, IP.len a ≠ 0 →
      firings (loopBody true (StartTaobaoIPLoop (Proc.start (New api)))
        (IPResult.ok a)).p.trace = [(none, a)]) := by
  have htr : firings (runLoop true (StartTaobaoIPLoop (Proc.start { ip := a0, api := api }))
      (as.map IPResult.ok)).p.trace = firings (runEvents true a0 (as.map IPResult.ok)) := by
    rw [runLoop_eq]
    simp [StartTaobaoIPLoop, GetIP, Proc.start]
  rw [htr]
  refine ⟨firings_spec_rel a0 a0 as (Equal_refl a0), firings_chain true a0 _,
    firings_spec_exact a0 as, ?_⟩
  intro a ha
  rw [loopBody_eq]
  simp [StartTaobaoIPLoop, GetIP, Proc.start, New, firings_tickEvents_ok,
    Equal_none_real a ha]

/-- Witness of C1: an unset cache, then `1.2.3.4` and `5.6.7.8` in four bytes. -/
theorem C1_firings_follow_changes_witness :
    firings (runLoop true
      (StartTaobaoIPLoop (Proc.start ({ ip := none, api := () } : MyIP Unit)))
      ([IPv4short 1 2 3 4, IPv4short 5 6 7 8].map IPResult.ok)).p.trace =
      specFirings none [IPv4short 1 2 3 4, IPv4short 5 6 7 8] :=
  (C1_firings_follow_changes () none [IPv4short 1 2 3 4, IPv4short 5 6 7 8]).2.2.1
    (by decide)

/-- Counterexample to C4 as stated, on both of its parts. The first successful
tick of a controller built by `New` fires with an unset old address; and a
resolver that returns a nil address without an error after `1.2.3.4` makes the
loop, which has no test on `newIP`, fire with a nil new address. -/
theorem C4_counterexample :
    firings (runLoop true (StartTaobaoIPLoop (Proc.start (New ())))
      [IPResult.ok (IPv4short 1 2 3 4)]).p.trace = [(none, IPv4short 1 2 3 4)] ∧
    ¬ (∀ f ∈ firings (runLoop true (StartTaobaoIPLoop (Proc.start (New ())))
        [IPResult.ok (IPv4short 1 2 3 4)]).p.trace,
      f.1 ≠ none ∧ f.2 ≠ none ∧ IP.Equal f.1 f.2 = false) ∧
    firings (runLoop true (StartTaobaoIPLoop (Proc.start (New ())))
      [IPResult.ok (IPv4short 1 2 3 4), { ip := none, err := none }]).p.trace =
      [(none, IPv4short 1 2 3 4), (IPv4short 1 2 3 4, none)] ∧
    ¬ (∀ f ∈ firings (runLoop true (StartTaobaoIPLoop (Proc.start (New ())))
        [IPResult.ok (IPv4short 1 2 3 4), { ip := none, err := none }]).p.trace,
      f.2 ≠ none) := by
  decide

/-- C4, amended: for a controller built by `New` and every list of tick
results, the two addresses of every firing are not address-equal. The first
firing carries the unset old address, and the old address of every later firing
is the new address of the firing before. The new address of every firing is the
address a successful tick returned, so it is nil only when the resolver
returned a nil address without an error. When no successful result carries a
nil address (as `Taobao.IP` guarantees), the new address of every firing is not
nil, and the old address of every firing but the first is not nil. -/
theorem C4_firings_carry_distinct_addresses {Api : Type} (api : Api) (cb : Bool)
    (rs : List IPResult) :
    (∀ f ∈ firings (runLoop cb (StartTaobaoIPLoop (Proc.start (New api))) rs).p.trace,
      IP.Equal f.1 f.2 = false) ∧
    (∀ f, (firings (runLoop cb (StartTaobaoIPLoop (Proc.start (New api))) rs).p.trace).head?
      = some f → f.1 = none) ∧
    ((firings (runLoop cb (StartTaobaoIPLoop (Proc.start (New api))) rs).p.trace).map
        Prod.fst =
      (none :: (firings (runLoop cb (StartTaobaoIPLoop (Proc.start (New api)))
        rs).p.trace).map Prod.snd).take
        (firings (runLoop cb (StartTaobaoIPLoop (Proc.start (New api))) rs).p.trace).length) ∧
    (∀ f ∈ firings (runLoop cb (StartTaobaoIPLoop (Proc.start (New api))) rs).p.trace,
      ∃ r ∈ rs, r.err = none ∧ r.ip = f.2) ∧
    ((∀ r ∈ rs, r.err = none → r.ip ≠ none) →
      (∀ f ∈ firings (runLoop cb (StartTaobaoIPLoop (Proc.start (New api))) rs).p.trace,
        f.2 ≠ none) ∧
      (∀ f ∈ (firings (runLoop cb (StartTaobaoIPLoop (Proc.start (New api))) rs).p.trace).tail,
        f.1 ≠ none)) := by
  have htr : firings (runLoop cb (StartTaobaoIPLoop (Proc.start (New api))) rs).p.trace =
      firings (runEvents cb none rs) := by
    rw [runLoop_eq]
    simp [StartTaobaoIPLoop, GetIP, Proc.start, New]
  rw [htr]
  have hs := firings_sound cb none rs
  have hc := chain_tail_old none _ (firings_chain cb none rs)
  have hnew : (∀ r ∈ rs, r.err = none → r.ip ≠ none) →
      ∀ f ∈ firings (runEvents cb none rs), f.2 ≠ none := by
    intro hres f hf
    obtain ⟨_, r, hr, he, hip⟩ := hs f hf
    rw [← hip]
    exact hres r hr he
  refine ⟨fun f hf => (hs f hf).1, hc.1, firings_chain cb none rs,
    fun f hf => (hs f hf).2, fun hres => ⟨hnew hres, ?_⟩⟩
  intro f hf
  obtain ⟨g, hg, hfg⟩ := hc.2 f hf
  rw [hfg]
  exact hnew hres g hg

/-- Witness of C4: two changes, `1.2.3.4` then `5.6.7.8`, around a failure. -/
theorem C4_firings_carry_distinct_addresses_witness :
    (∀ f ∈ firings (runLoop true (StartTaobaoIPLoop (Proc.start (New ())))
        [IPResult.ok (IPv4short 1 2 3 4), IPResult.fail "timeout",
          IPResult.ok (IPv4short 5 6 7 8)]).p.trace, f.2 ≠ none) ∧
    (∀ f ∈ (firings (runLoop true (StartTaobaoIPLoop (Proc.start (New ())))
        [IPResult.ok (IPv4short 1 2 3 4), IPResult.fail "timeout",
          IPResult.ok (IPv4short 5 6 7 8)]).p.trace).tail, f.1 ≠ none) :=
  (C4_firings_carry_distinct_addresses () true
    [IPResult.ok (IPv4short 1 2 3 4), IPResult.fail "timeout",
      IPResult.ok (IPv4short 5 6 7 8)]).2.2.2.2 (by decide)

/-- C6: `Taobao.IP` as a function of the HTTP outcome, of the JSON decoder and
of `net.ParseIP`. It returns no error exactly when the transport succeeded, the
status is 200, the body decodes and the decoded `data.ip` parses; it then
returns the parsed address, which is not nil. A transport error is passed on,
and a bad status, a body that does not decode and a literal that does not parse
each give a nil address with their own error message; the three messages are
pairwise different whatever their arguments. A result with an error carries a
nil address, a result without error a non-nil one, and never a nil address
without error. -/
theorem C6_Taobao_IP_outcomes {C : Type} (env : Env C) (t : Taobao C) :
    ((Taobao.IP env t).err = none ↔
      ∃ resp parsed a, env.Do (t.client env) = Except.ok resp ∧
        resp.StatusCode = StatusOK ∧ env.Decode resp.Body = Except.ok parsed ∧
        env.ParseIP parsed.Data.IP = some a) ∧
    (∀ resp parsed a, env.Do (t.client env) = Except.ok resp →
      resp.StatusCode = StatusOK → env.Decode resp.Body = Except.ok parsed →
      env.ParseIP parsed.Data.IP = some a →
      Taobao.IP env t = { ip := some a, err := none }) ∧
    (∀ err, env.Do (t.client env) = Except.error err →
      Taobao.IP env t = { ip := none, err := some err }) ∧
    (∀ resp, env.Do (t.client env) = Except.ok resp → resp.StatusCode ≠ StatusOK →
      Taobao.IP env t = { ip := none, err := some (errStatus resp.Status) }) ∧
    (∀ resp err, env.Do (t.client env) = Except.ok resp → resp.StatusCode = StatusOK →
      env.Decode resp.Body = Except.error err →
      Taobao.IP env t = { ip := none, err := some (errDecode err) }) ∧
    (∀ resp parsed, env.Do (t.client env) = Except.ok resp →
      resp.StatusCode = StatusOK → env.Decode resp.Body = Except.ok parsed →
      env.ParseIP parsed.Data.IP = none →
      Taobao.IP env t =
        { ip := none, err := some (errParse (env.Quote parsed.Data.IP)) }) ∧
    ((Taobao.IP env t).err ≠ none → (Taobao.IP env t).ip = none) ∧
    ((Taobao.IP env t).err = none → (Taobao.IP env t).ip ≠ none) ∧
    ¬ ((Taobao.IP env t).ip = none ∧ (Taobao.IP env t).err = none) ∧
    (∀ s e q : String,
      errStatus s ≠ errDecode e ∧ errStatus s ≠ errParse q ∧ errDecode e ≠ errParse q) := by
  have hcases : ∀ resp parsed a, env.Do (t.client env) = Except.ok resp →
      resp.StatusCode = StatusOK → env.Decode resp.Body = Except.ok parsed →
      env.ParseIP parsed.Data.IP = some a →
      Taobao.IP env t = { ip := some a, err := none } := by
    intro resp parsed a h1 h2 h3 h4
    simp [Taobao.IP, h1, h2, h3, h4]
  have hall : ((Taobao.IP env t).err = none ↔
      ∃ resp parsed a, env.Do (t.client env) = Except.ok resp ∧
        resp.StatusCode = StatusOK ∧ env.Decode resp.Body = Except.ok parsed ∧
        env.ParseIP parsed.Data.IP = some a) ∧
      ((Taobao.IP env t).err ≠ none → (Taobao.IP env t).ip = none) ∧
      ((Taobao.IP env t).err = none → (Taobao.IP env t).ip ≠ none) := by
    cases h1 : env.Do (t.client env) with
    | error err => simp [Taobao.IP, h1]
    | ok resp =>
      by_cases h2 : resp.StatusCode = StatusOK
      · cases h3 : env.Decode resp.Body with
        | error err => simp [Taobao.IP, h1, h2, h3]
        | ok parsed =>
          cases h4 : env.ParseIP parsed.Data.IP with
          | none => simp [Taobao.IP, h1, h2, h3, h4]
          | some a => simp [Taobao.IP, h1, h2, h3, h4]
      · simp [Taobao.IP, h1, h2]
  refine ⟨hall.1, hcases, ?_, ?_, ?_, ?_, hall.2.1, hall.2.2, ?_, err_messages_distinct⟩
  · intro err h1
    simp [Taobao.IP, h1]
  · intro resp h1 h2
    simp [Taobao.IP, h1, h2]
  · intro resp err h1 h2 h3
    simp [Taobao.IP, h1, h2, h3]
  · intro resp parsed h1 h2 h3 h4
    simp [Taobao.IP, h1, h2, h3, h4]
  · intro h
    exact hall.2.2 h.2 h.1

/-- Witness of C6: the default client gets status 200 and a body whose `data.ip`
parses to `1.2.3.4`. -/
theorem C6_Taobao_IP_outcomes_witness :
    Taobao.IP
      ({ DefaultClient := (),
         Do := fun _ => Except.ok { Status := "200 OK", StatusCode := 200, Body := "body" },
         Decode := fun _ => Except.ok { Code := 0, Data := { IP := "1.2.3.4" } },
         ParseIP := fun _ => IPv4long 1 2 3 4,
         Quote := fun s => s } : Env Unit)
      { Client := none } = { ip := IPv4long 1 2 3 4, err := none } :=
  (C6_Taobao_IP_outcomes
    ({ DefaultClient := (),
       Do := fun _ => Except.ok { Status := "200 OK", StatusCode := 200, Body := "body" },
       Decode := fun _ => Except.ok { Code := 0, Data := { IP := "1.2.3.4" } },
       ParseIP := fun _ => IPv4long 1 2 3 4,
       Quote := fun s => s } : Env Unit)
    { Client := none }).2.1
    { Status := "200 OK", StatusCode := 200, Body := "body" }
    { Code := 0, Data := { IP := "1.2.3.4" } } _ rfl rfl rfl rfl

end GdnsGo
